import Mathlib

/-!
Shallow embedding of `src/compress-aerial-images.py`, a GDAL-based batch
compressor for aerial GeoTIFF images.  Paths are modelled as lists of
components (`os.path.join` is list append, `os.path.relpath p root` is
dropping `root`'s components).  The external GDAL library is modelled by a
per-file behaviour record (`GdalFile`): which stage returns `None` and which
stage raises a Python exception.  Wall-clock readings are inputs of the
model (`elapsed`, `batchElapsed`), since the embedding is pure.
-/

namespace CompressOrtho

/-- A filesystem path, as its list of components. -/
abbrev Path := List String

/-- Render a path for human-readable messages. -/
def pathStr (p : Path) : String := String.intercalate "/" p

/-- Index of the last occurrence of `c` in `cs`, if any. -/
def lastIdxOf (c : Char) (cs : List Char) : Option Nat :=
  match cs.reverse.findIdx? (· = c) with
  | none => none
  | some j => some (cs.length - 1 - j)

/-- The extension part of `os.path.splitext` applied to a bare filename
(no directory separators): the suffix starting at the last dot, unless
every character before that dot is itself a dot (leading dots, as in
`.bashrc`, do not start an extension). -/
def splitextExt (s : String) : String :=
  let cs := s.data
  match lastIdxOf '.' cs with
  | none => ""
  | some i => if (cs.take i).any (fun c => c ≠ '.') then String.mk (cs.drop i) else ""

/-- Python's `str.lower()` restricted to ASCII letters, which is all the
extension comparison of line 193 relies on. -/
def lowerAscii (s : String) : String := String.mk (s.data.map Char.toLower)

/-- Line 193 of the source: a walked file qualifies when the lowercased
extension of its name is a member of the `extensions` list.  Note the
source lowercases only the file's extension, never the list entries. -/
def qualifies (extensions : List String) (fileName : String) : Bool :=
  extensions.contains (lowerAscii (splitextExt fileName))

/-- Lines 81-89: the creation options always passed to the GTiff driver. -/
def baseOptions (cpu_count : Nat) : List String :=
  ["COMPRESS=JPEG", "JPEG_QUALITY=90", "PHOTOMETRIC=YCBCR", "TILED=YES",
   "BLOCKXSIZE=512", "BLOCKYSIZE=512", "NUM_THREADS=" ++ toString cpu_count]

/-- Lines 93-98: the acceleration-specific creation options. -/
def gpuOnlyOptions : List String :=
  ["GPUNODE=AUTO", "USE_CUDA=YES", "GPU_CACHE_SIZE=40", "INTERLEAVE=PIXEL"]

/-- Lines 81-99: the full creation-option list; the GPU block is appended
exactly when `use_gpu and has_cuda` holds at line 92. -/
def creationOptions (cpu_count : Nat) (use_gpu has_cuda : Bool) : List String :=
  baseOptions cpu_count ++ (if use_gpu && has_cuda then gpuOnlyOptions else [])

/-- Behaviour of the external GDAL library on one source/destination file
pair: whether `gdal.Open` raises or returns `None`, whether
`driver.Create` raises or returns `None`, and whether the band-copy /
overview-building phase raises. -/
structure GdalFile where
  openExn : Option String
  openOk : Bool
  createExn : Option String
  createOk : Bool
  copyExn : Option String
  deriving Repr, DecidableEq

/-- A GDAL behaviour on which every stage succeeds. -/
def gdalAllOk : GdalFile :=
  { openExn := none, openOk := true, createExn := none, createOk := true, copyExn := none }

/-- The observable result of one `compress_geotiff` call: the returned
boolean, the failure message printed (if any), the duration printed (the
source prints it only on the success line 143), and the creation-option
list passed to `driver.Create` (if the call reached the option build). -/
structure ConvOutcome where
  succeeded : Bool
  errorDetail : Option String
  reportedDuration : Option ℚ
  optionsUsed : Option (List String)
  deriving Repr, DecidableEq

/-- Lines 60-144: the body of the `try` block of `compress_geotiff`.
`Except.error` models a Python exception escaping the body. -/
def compress_body (cpu_count : Nat) (has_cuda : Bool) (f : GdalFile) (elapsed : ℚ)
    (input_file output_file : Path) (use_gpu : Bool) : Except String ConvOutcome :=
  match f.openExn with
  | some msg => .error msg
  | none =>
    if f.openOk = false then
      .ok { succeeded := false
          , errorDetail := some ("Impossible d'ouvrir le fichier " ++ pathStr input_file)
          , reportedDuration := none, optionsUsed := none }
    else
      let options := creationOptions cpu_count use_gpu has_cuda
      match f.createExn with
      | some msg => .error msg
      | none =>
        if f.createOk = false then
          .ok { succeeded := false
              , errorDetail := some ("Impossible de creer le fichier " ++ pathStr output_file)
              , reportedDuration := none, optionsUsed := some options }
        else
          match f.copyExn with
          | some msg => .error msg
          | none =>
            .ok { succeeded := true, errorDetail := none
                , reportedDuration := some elapsed, optionsUsed := some options }

/-- Lines 59-148: `compress_geotiff`, the `try` body wrapped by the
`except Exception` handler of lines 146-148, which prints the error text
and returns `False`. -/
def compress_geotiff (cpu_count : Nat) (has_cuda : Bool) (f : GdalFile) (elapsed : ℚ)
    (input_file output_file : Path) (use_gpu : Bool) : ConvOutcome :=
  match compress_body cpu_count has_cuda f elapsed input_file output_file use_gpu with
  | .ok r => r
  | .error msg =>
    { succeeded := false
    , errorDetail := some ("Erreur lors de la compression: " ++ msg)
    , reportedDuration := none, optionsUsed := none }

/-- Does `needle` occur as a contiguous substring of `hay`? -/
def containsSub (needle hay : List Char) : Bool :=
  (List.range (hay.length + 1)).any (fun i => needle.isPrefixOf (hay.drop i))

/-- One file met during `os.walk`: the directory components of its parent
relative to the walked root, and its name. -/
structure WalkEntry where
  relDir : List String
  fileName : String
  deriving Repr, DecidableEq

/-- One element of `files_to_process` (line 204): source path, destination
path, and the acceleration flag passed to the conversion. -/
structure WorkItem where
  inputPath : Path
  outputPath : Path
  use_gpu : Bool
  deriving Repr, DecidableEq

/-- The ambient state the script runs in: host CPU count, the module-level
`has_cuda` global of line 20, the GDAL driver short-name list and whether
probing raises (for `check_gpu_support`), the files met by `os.walk` in
visit order, whether the output root already exists, the GDAL behaviour
and wall-clock duration of each source file, and the batch's wall-clock
span. -/
structure World where
  cpu_count : Nat
  has_cuda : Bool
  drivers : List String
  probeRaises : Bool
  entries : List WalkEntry
  outputRootExists : Bool
  gdal : Path → GdalFile
  elapsed : Path → ℚ
  batchElapsed : ℚ

/-- Lines 22-45: `check_gpu_support`.  Any internal error yields `False`;
otherwise the result is `'CUDA' in ' '.join(drivers) or has_cuda`. -/
def check_gpu_support (w : World) : Bool :=
  if w.probeRaises then false
  else containsSub "CUDA".data (String.intercalate " " w.drivers).data || w.has_cuda

/-- Line 209: `pool_size = max(1, min(cpu_count - 1, 8))`. -/
def pool_size (cpu_count : ℤ) : ℤ :=
  max 1 (min (cpu_count - 1) 8)

/-- The arguments `batch_compress` receives. -/
structure BatchConfig where
  inputDir : Path
  outputDir : Path
  extensions : List String
  use_gpu : Bool
  parallel : Bool

/-- Lines 178-181: the probe runs only when acceleration was requested. -/
def gpuAvailable (w : World) (cfg : BatchConfig) : Bool :=
  if cfg.use_gpu then check_gpu_support w else false

/-- Lines 196-204: the work item built for one qualifying walk entry.
`input_path = os.path.join(root, file)`, `rel_path =
os.path.relpath(input_path, input_dir)` and `output_path =
os.path.join(output_dir, rel_path)` become list appends, and the flag is
`gpu_available and use_gpu`. -/
def enumEntry (cfg : BatchConfig) (flag : Bool) (e : WalkEntry) : WorkItem :=
  { inputPath := cfg.inputDir ++ e.relDir ++ [e.fileName]
  , outputPath := cfg.outputDir ++ e.relDir ++ [e.fileName]
  , use_gpu := flag }

/-- Lines 189-204: the `files_to_process` list, in walk order. -/
def workItemsOf (w : World) (cfg : BatchConfig) : List WorkItem :=
  ((w.entries).filter (fun e => qualifies cfg.extensions e.fileName)).map
    (enumEntry cfg (gpuAvailable w cfg && cfg.use_gpu))

/-- Line 161 / lines 213, 219: the conversion run for one work item. -/
def runConv (w : World) (it : WorkItem) : ConvOutcome :=
  compress_geotiff w.cpu_count w.has_cuda (w.gdal it.inputPath) (w.elapsed it.inputPath)
    it.inputPath it.outputPath it.use_gpu

/-- Observable steps of a `batch_compress` run, in program order. -/
inductive Event where
  | mkdirOutRoot : Event
  | probe (result : Bool) : Event
  | mkdirParent (dir : Path) : Event
  | poolDispatch (size : ℤ) : Event
  | progressLine (path : Path) : Event
  | convert (item : WorkItem) (outcome : ConvOutcome) : Event
  deriving Repr, DecidableEq

/-- Is this event a conversion? -/
def Event.isConvert : Event → Bool
  | .convert _ _ => true
  | _ => false

/-- Is this event the creation of a destination parent directory? -/
def Event.isMkdirParent : Event → Bool
  | .mkdirParent _ => true
  | _ => false

/-- Lines 174-204: events before dispatch — creating the output root if
absent, probing (only when requested), and `os.makedirs(dirname(output),
exist_ok=True)` once per qualifying file during enumeration. -/
def setupTrace (w : World) (cfg : BatchConfig) : List Event :=
  (if w.outputRootExists then [] else [Event.mkdirOutRoot])
    ++ (if cfg.use_gpu then [Event.probe (check_gpu_support w)] else [])
    ++ (workItemsOf w cfg).map (fun it => Event.mkdirParent it.outputPath.dropLast)

/-- Lines 216-220: the sequential branch — a progress line, then the
conversion, for each item in enumeration order. -/
def seqTrace (w : World) (cfg : BatchConfig) : List Event :=
  (workItemsOf w cfg).flatMap
    (fun it => [Event.progressLine it.inputPath, Event.convert it (runConv w it)])

/-- Lines 207-214: the parallel branch — one pool of `pool_size` workers;
`pool.map` yields exactly one result per item, in submission order. -/
def parTrace (w : World) (cfg : BatchConfig) : List Event :=
  Event.poolDispatch (pool_size w.cpu_count)
    :: (workItemsOf w cfg).map (fun it => Event.convert it (runConv w it))

/-- What a `batch_compress` run produces: its event trace, the work list,
the per-item results, the counters of lines 184-220 and the mean of line
226. -/
structure BatchResult where
  trace : List Event
  workItems : List WorkItem
  outcomes : List ConvOutcome
  totalFiles : Nat
  successfulFiles : Nat
  meanDuration : ℚ

/-- Lines 163-226: `batch_compress`.  `total_files` is incremented once
per qualifying file; the pool branch runs when `parallel and total_files
> 1`; `successful_files` counts true results; the mean printed at line
226 is `duration / max(1, total_files)`. -/
def batch_compress (w : World) (cfg : BatchConfig) : BatchResult :=
  let items := workItemsOf w cfg
  let total_files := items.length
  let outs := items.map (runConv w)
  { trace := setupTrace w cfg
      ++ (if cfg.parallel = true ∧ 1 < total_files then parTrace w cfg else seqTrace w cfg)
  , workItems := items
  , outcomes := outs
  , totalFiles := total_files
  , successfulFiles := (outs.filter (fun o => o.succeeded)).length
  , meanDuration := w.batchElapsed / ((max 1 total_files : Nat) : ℚ) }

/-- The spec's reading of line 193 ("extension compared
case-insensitively", "matching does not depend on the letter case of
entries in the set"): both the file's extension and the set's entries
are lowercased before comparison.  Stated from the spec's words, for
comparison with `qualifies`, which is translated from the code. -/
def qualifiesCaseless (extensions : List String) (fileName : String) : Bool :=
  (extensions.map lowerAscii).contains (lowerAscii (splitextExt fileName))

/-- A concrete world whose driver list contains the string CUDA while the
module-level `has_cuda` flag of line 20 is false. -/
def cexWorld : World :=
  { cpu_count := 4, has_cuda := false, drivers := ["CUDA"], probeRaises := false
  , entries := [{ relDir := [], fileName := "a.tif" }], outputRootExists := true
  , gdal := fun _ => gdalAllOk, elapsed := fun _ => 5, batchElapsed := 10 }

/-- A concrete batch request with acceleration requested. -/
def cexConfig : BatchConfig :=
  { inputDir := ["in"], outputDir := ["out"], extensions := [".tif", ".tiff"]
  , use_gpu := true, parallel := true }

/-- `cexWorld` with the module-level `has_cuda` flag also true. -/
def cudaWorld : World := { cexWorld with has_cuda := true }

/-- A three-file world matching the spec's directory scenario. -/
def seqWorld : World :=
  { cexWorld with entries :=
      [ { relDir := ["a"], fileName := "img1.tif" }
      , { relDir := ["a", "b"], fileName := "img2.tiff" }
      , { relDir := ["c"], fileName := "notes.txt" } ] }

/-- A batch request with acceleration off and parallelism disabled. -/
def seqConfig : BatchConfig := { cexConfig with use_gpu := false, parallel := false }

/-- An empty-directory world. -/
def emptyWorld : World := { cexWorld with entries := [] }

/-! ### Unfolding lemmas for `batch_compress` -/

lemma batch_workItems (w : World) (cfg : BatchConfig) :
    (batch_compress w cfg).workItems = workItemsOf w cfg := rfl

lemma batch_outcomes (w : World) (cfg : BatchConfig) :
    (batch_compress w cfg).outcomes = (workItemsOf w cfg).map (runConv w) := rfl

lemma batch_totalFiles (w : World) (cfg : BatchConfig) :
    (batch_compress w cfg).totalFiles = (workItemsOf w cfg).length := rfl

lemma batch_trace (w : World) (cfg : BatchConfig) :
    (batch_compress w cfg).trace = setupTrace w cfg
      ++ (if cfg.parallel = true ∧ 1 < (workItemsOf w cfg).length
          then parTrace w cfg else seqTrace w cfg) := rfl

lemma batch_meanDuration (w : World) (cfg : BatchConfig) :
    (batch_compress w cfg).meanDuration
      = w.batchElapsed / ((max 1 (workItemsOf w cfg).length : Nat) : ℚ) := rfl

/-! ### Helper lemmas -/

lemma snd_eq_of_mem_zip_map {α β : Type _} (f : α → β) :
    ∀ (l : List α) (a : α) (b : β), (a, b) ∈ l.zip (l.map f) → b = f a := by
  intro l
  induction l with
  | nil => intro a b h; simp at h
  | cons x t ih =>
    intro a b h
    simp only [List.map_cons, List.zip_cons_cons, List.mem_cons, Prod.mk.injEq] at h
    rcases h with ⟨h1, h2⟩ | h
    · subst h1; exact h2
    · exact ih a b h

lemma mem_workItems_flag {w : World} {cfg : BatchConfig} {it : WorkItem}
    (h : it ∈ workItemsOf w cfg) :
    it.use_gpu = (gpuAvailable w cfg && cfg.use_gpu) := by
  simp only [workItemsOf, List.mem_map] at h
  obtain ⟨e, _, rfl⟩ := h
  rfl

/-- Full case analysis of one `compress_geotiff` call: either everything
succeeded and the outcome carries the duration and the built option list,
or the call failed, an error message was printed, and no duration was. -/
lemma compress_geotiff_cases (cpu : Nat) (hc : Bool) (f : GdalFile) (el : ℚ)
    (inp out : Path) (flag : Bool) :
    (compress_geotiff cpu hc f el inp out flag
        = { succeeded := true, errorDetail := none, reportedDuration := some el
          , optionsUsed := some (creationOptions cpu flag hc) })
    ∨ ((compress_geotiff cpu hc f el inp out flag).succeeded = false
        ∧ ((compress_geotiff cpu hc f el inp out flag).errorDetail).isSome = true
        ∧ (compress_geotiff cpu hc f el inp out flag).reportedDuration = none) := by
  obtain ⟨oe, ook, ce, cok, pe⟩ := f
  rcases oe with _ | msg
  · rcases ook with _ | _
    · right; simp [compress_geotiff, compress_body]
    · rcases ce with _ | msg
      · rcases cok with _ | _
        · right; simp [compress_geotiff, compress_body]
        · rcases pe with _ | msg
          · left; simp [compress_geotiff, compress_body]
          · right; simp [compress_geotiff, compress_body]
      · right; simp [compress_geotiff, compress_body]
  · right; simp [compress_geotiff, compress_body]

lemma optionsUsed_shape (cpu : Nat) (hc : Bool) (f : GdalFile) (el : ℚ)
    (inp out : Path) (flag : Bool) (opts : List String)
    (h : (compress_geotiff cpu hc f el inp out flag).optionsUsed = some opts) :
    opts = creationOptions cpu flag hc := by
  obtain ⟨oe, ook, ce, cok, pe⟩ := f
  rcases oe with _ | msg
  · rcases ook with _ | _
    · simp [compress_geotiff, compress_body] at h
    · rcases ce with _ | msg
      · rcases cok with _ | _
        · simp [compress_geotiff, compress_body] at h
          exact h.symm
        · rcases pe with _ | msg
          · simp [compress_geotiff, compress_body] at h
            exact h.symm
          · simp [compress_geotiff, compress_body] at h
      · simp [compress_geotiff, compress_body] at h
  · simp [compress_geotiff, compress_body] at h

lemma setupTrace_no_convert (w : World) (cfg : BatchConfig) :
    ∀ e ∈ setupTrace w cfg, ¬e.isConvert = true := by
  intro e he
  cases e
  case convert it oc =>
    exfalso
    simp only [setupTrace, List.mem_append, List.mem_map] at he
    rcases he with (h | h) | ⟨it2, -, heq⟩
    · cases hw : w.outputRootExists <;> rw [hw] at h <;> simp at h
    · cases hg : cfg.use_gpu <;> rw [hg] at h <;> simp at h
    · exact Event.noConfusion heq
  all_goals simp [Event.isConvert]

lemma length_filter_convert_map (g : WorkItem → ConvOutcome) (l : List WorkItem) :
    ((l.map (fun it => Event.convert it (g it))).filter Event.isConvert).length = l.length := by
  induction l with
  | nil => rfl
  | cons a t ih => simp [List.filter_cons, Event.isConvert, ih]

lemma length_filter_convert_pairs (g : WorkItem → ConvOutcome) (l : List WorkItem) :
    ((l.flatMap
        (fun it => [Event.progressLine it.inputPath, Event.convert it (g it)])).filter
      Event.isConvert).length = l.length := by
  induction l with
  | nil => rfl
  | cons a t ih =>
    simp [List.flatMap_cons, List.filter_append, List.filter_cons, Event.isConvert, ih]

lemma length_filter_isConvert_parTrace (w : World) (cfg : BatchConfig) :
    ((parTrace w cfg).filter Event.isConvert).length = (workItemsOf w cfg).length := by
  simp only [parTrace, List.filter_cons]
  rw [if_neg (by simp [Event.isConvert])]
  exact length_filter_convert_map _ _

lemma length_filter_isConvert_seqTrace (w : World) (cfg : BatchConfig) :
    ((seqTrace w cfg).filter Event.isConvert).length = (workItemsOf w cfg).length := by
  simp only [seqTrace]
  exact length_filter_convert_pairs _ _

lemma head_ne_num_threads (g : String) (hne : g.data.head? ≠ some 'N') (s : String)
    (h : g = "NUM_THREADS=" ++ s) : False := by
  rw [h] at hne
  exact hne rfl

lemma gpu_opt_not_mem_base (n : Nat) : ∀ g ∈ gpuOnlyOptions, g ∉ baseOptions n := by
  intro g hg hbase
  simp only [gpuOnlyOptions, List.mem_cons, List.not_mem_nil, or_false] at hg
  simp only [baseOptions, List.mem_cons, List.not_mem_nil, or_false] at hbase
  rcases hg with rfl | rfl | rfl | rfl <;>
    rcases hbase with h | h | h | h | h | h | h <;>
      first
        | exact absurd h (by decide)
        | exact head_ne_num_threads _ (by decide) _ h

/-! ### Claim theorems -/

/-- C1: for every batch, the number of conversion outcomes equals the
number of enumerated work items (which is the `total_files` counter), and
the dispatch — parallel or sequential — performs exactly one conversion
event per work item, regardless of individual failures. -/
theorem one_outcome_per_item (w : World) (cfg : BatchConfig) :
    (batch_compress w cfg).outcomes.length = (batch_compress w cfg).workItems.length
    ∧ (batch_compress w cfg).totalFiles = (batch_compress w cfg).workItems.length
    ∧ ((batch_compress w cfg).trace.filter Event.isConvert).length
        = (batch_compress w cfg).workItems.length := by
  refine ⟨by simp [batch_outcomes, batch_workItems], rfl, ?_⟩
  rw [batch_trace, batch_workItems, List.filter_append,
    List.filter_eq_nil_iff.mpr (setupTrace_no_convert w cfg), List.nil_append]
  split
  · exact length_filter_isConvert_parTrace w cfg
  · exact length_filter_isConvert_seqTrace w cfg

/-- C2: `compress_geotiff` never raises past its boundary: every call
returns an outcome that is either a success with no error, or a failure
carrying an error message; and whenever the `try` body raises, the
handler converts the exception into a failed outcome. -/
theorem conversion_never_raises (cpu : Nat) (hc : Bool) (f : GdalFile) (el : ℚ)
    (inp out : Path) (flag : Bool) :
    (((compress_geotiff cpu hc f el inp out flag).succeeded = true
        ∧ (compress_geotiff cpu hc f el inp out flag).errorDetail = none)
      ∨ ((compress_geotiff cpu hc f el inp out flag).succeeded = false
        ∧ ((compress_geotiff cpu hc f el inp out flag).errorDetail).isSome = true))
    ∧ (∀ msg, compress_body cpu hc f el inp out flag = .error msg →
        compress_geotiff cpu hc f el inp out flag
          = { succeeded := false
            , errorDetail := some ("Erreur lors de la compression: " ++ msg)
            , reportedDuration := none, optionsUsed := none }) := by
  constructor
  · rcases compress_geotiff_cases cpu hc f el inp out flag with h | ⟨h1, h2, _⟩
    · left; rw [h]; exact ⟨rfl, rfl⟩
    · right; exact ⟨h1, h2⟩
  · intro msg hmsg
    simp [compress_geotiff, hmsg]

/-- Witness for C2 at a concrete raising input. -/
theorem conversion_never_raises_witness :
    compress_geotiff 4 false ⟨some "boom", true, none, true, none⟩ 5
        ["in", "a.tif"] ["out", "a.tif"] false
      = { succeeded := false, errorDetail := some ("Erreur lors de la compression: " ++ "boom")
        , reportedDuration := none, optionsUsed := none } :=
  (conversion_never_raises 4 false ⟨some "boom", true, none, true, none⟩ 5
    ["in", "a.tif"] ["out", "a.tif"] false).2 "boom" rfl

/-- C4: for every CPU count `n ≥ 1`, the pool width of line 209,
`max(1, min(n - 1, 8))`, equals `min(max(1, n - 1), 8)`; at 1, 4 and 16
logical CPUs it is 1, 3 and 8. -/
theorem pool_width_formula (n : ℤ) (h : 1 ≤ n) :
    pool_size n = min (max 1 (n - 1)) 8
    ∧ (n = 1 → pool_size n = 1) ∧ (n = 4 → pool_size n = 3)
    ∧ (n = 16 → pool_size n = 8) := by
  unfold pool_size
  omega

/-- Witness for C4 at 4 logical CPUs. -/
theorem pool_width_formula_witness : pool_size 4 = min (max 1 (4 - 1)) 8 ∧ pool_size 4 = 3 :=
  ⟨(pool_width_formula 4 (by norm_num)).1,
   (pool_width_formula 4 (by norm_num)).2.2.1 rfl⟩

/-- C8: the reported mean duration is `batch elapsed / max(1, total
files)`; the divisor is positive, so an empty batch divides by 1 and the
mean then equals the total elapsed time. -/
theorem mean_duration_zero_guard (w : World) (cfg : BatchConfig) :
    (batch_compress w cfg).meanDuration
        = w.batchElapsed / ((max 1 (batch_compress w cfg).totalFiles : Nat) : ℚ)
    ∧ (0 : ℚ) < ((max 1 (batch_compress w cfg).totalFiles : Nat) : ℚ)
    ∧ ((batch_compress w cfg).totalFiles = 0 →
        (batch_compress w cfg).meanDuration = w.batchElapsed) := by
  refine ⟨rfl, ?_, ?_⟩
  · have h1 : (0 : ℕ) < max 1 (batch_compress w cfg).totalFiles :=
      lt_of_lt_of_le Nat.zero_lt_one (le_max_left 1 _)
    exact_mod_cast h1
  · intro h0
    have hl : (workItemsOf w cfg).length = 0 := h0
    rw [batch_meanDuration, hl]
    norm_num

/-- Witness for C8: summarizing an empty batch divides by one, not by
zero, and reports the whole elapsed time as the mean. -/
theorem mean_duration_zero_guard_witness :
    (batch_compress emptyWorld seqConfig).meanDuration = emptyWorld.batchElapsed :=
  (mean_duration_zero_guard emptyWorld seqConfig).2.2 (by decide)

/-- C3 counterexample: in a world whose GDAL driver list contains the
string CUDA while the module-level `has_cuda` flag of line 20 is false,
the Capability Probe reports true, the single enumerated item carries
`use_acceleration = true` — yet the conversion passes only the base
options, no accelerated one.  Line 92 gates on the global `has_cuda`,
not on the probe's result, so the claim's "if and only if" fails. -/
theorem accel_options_follow_probe_cex :
    check_gpu_support cexWorld = true
    ∧ (batch_compress cexWorld cexConfig).workItems.map WorkItem.use_gpu = [true]
    ∧ (batch_compress cexWorld cexConfig).outcomes.map ConvOutcome.optionsUsed
        = [some (baseOptions 4)]
    ∧ "GPUNODE=AUTO" ∈ gpuOnlyOptions
    ∧ "GPUNODE=AUTO" ∉ baseOptions 4 := by decide

/-- C3 (amended): in every batch, a conversion that builds its creation
options receives the acceleration-specific ones iff the item's
acceleration flag AND the module-level `has_cuda` flag both hold (line
92 tests `use_gpu and has_cuda`, not the probe's result); the base
options (same pixel quality) are always present; and when the probe
reports unavailable, no accelerated option reaches any conversion. -/
theorem accel_options_follow_has_cuda (w : World) (cfg : BatchConfig)
    (it : WorkItem) (oc : ConvOutcome)
    (hmem : (it, oc) ∈ (batch_compress w cfg).workItems.zip (batch_compress w cfg).outcomes)
    (opts : List String) (hopts : oc.optionsUsed = some opts) :
    ((∀ o ∈ gpuOnlyOptions, o ∈ opts) ↔ (it.use_gpu && w.has_cuda) = true)
    ∧ (∀ o ∈ baseOptions w.cpu_count, o ∈ opts)
    ∧ (check_gpu_support w = false → ∀ o ∈ gpuOnlyOptions, o ∉ opts) := by
  rw [batch_workItems, batch_outcomes] at hmem
  have hit : it ∈ workItemsOf w cfg := (List.of_mem_zip hmem).1
  have hoc : oc = runConv w it :=
    snd_eq_of_mem_zip_map (runConv w) (workItemsOf w cfg) it oc hmem
  subst hoc
  have hshape : opts = creationOptions w.cpu_count it.use_gpu w.has_cuda :=
    optionsUsed_shape w.cpu_count w.has_cuda (w.gdal it.inputPath)
      (w.elapsed it.inputPath) it.inputPath it.outputPath it.use_gpu opts hopts
  subst hshape
  refine ⟨⟨?_, ?_⟩, ?_, ?_⟩
  · intro hall
    cases hcond : (it.use_gpu && w.has_cuda)
    · exfalso
      have h1 := hall "GPUNODE=AUTO" (by decide)
      rw [creationOptions, hcond] at h1
      simp only [Bool.false_eq_true, if_false, List.append_nil] at h1
      exact gpu_opt_not_mem_base w.cpu_count "GPUNODE=AUTO" (by decide) h1
    · rfl
  · intro hcond o ho
    rw [creationOptions, hcond]
    simp only [if_true]
    exact List.mem_append_right _ ho
  · intro o ho
    rw [creationOptions]
    exact List.mem_append_left _ ho
  · intro hprobe o ho hmemo
    have hflag := mem_workItems_flag hit
    have hflag0 : it.use_gpu = false := by
      rw [hflag, gpuAvailable, hprobe]
      cases cfg.use_gpu <;> rfl
    rw [creationOptions, hflag0] at hmemo
    simp only [Bool.false_and, Bool.false_eq_true, if_false, List.append_nil] at hmemo
    exact gpu_opt_not_mem_base w.cpu_count o ho hmemo

/-- Witness for the amended C3: a world where the flag and `has_cuda`
both hold, so the GPU options are all present, as are the base ones. -/
theorem accel_options_follow_has_cuda_witness :
    (∀ o ∈ gpuOnlyOptions, o ∈ creationOptions 4 true true)
    ∧ (∀ o ∈ baseOptions 4, o ∈ creationOptions 4 true true) := by
  have h := accel_options_follow_has_cuda cudaWorld cexConfig
      ⟨["in", "a.tif"], ["out", "a.tif"], true⟩
      (runConv cudaWorld ⟨["in", "a.tif"], ["out", "a.tif"], true⟩)
      (by decide) (creationOptions 4 true true) (by decide)
  exact ⟨h.1.mpr (by decide), h.2.1⟩

/-- C5: every work item's source lies under the input root, its
destination is the output root followed by the source's path relative to
the input root (filename unchanged), and in the batch trace every
destination-parent directory creation precedes every conversion. -/
theorem destination_mirrors_input_tree (w : World) (cfg : BatchConfig) :
    (∀ it ∈ (batch_compress w cfg).workItems,
        it.inputPath.take cfg.inputDir.length = cfg.inputDir
        ∧ it.outputPath = cfg.outputDir ++ it.inputPath.drop cfg.inputDir.length
        ∧ it.outputPath.getLast? = it.inputPath.getLast?)
    ∧ (∃ a b, (batch_compress w cfg).trace = a ++ b
        ∧ (∀ e ∈ a, ¬e.isConvert = true)
        ∧ (∀ e ∈ b, ¬e.isMkdirParent = true)) := by
  constructor
  · intro it hmem
    rw [batch_workItems] at hmem
    simp only [workItemsOf, List.mem_map] at hmem
    obtain ⟨e, -, rfl⟩ := hmem
    refine ⟨?_, ?_, ?_⟩
    · show (cfg.inputDir ++ e.relDir ++ [e.fileName]).take cfg.inputDir.length = cfg.inputDir
      rw [List.append_assoc, List.take_left]
    · show cfg.outputDir ++ e.relDir ++ [e.fileName]
          = cfg.outputDir ++ (cfg.inputDir ++ e.relDir ++ [e.fileName]).drop cfg.inputDir.length
      rw [List.append_assoc cfg.inputDir, List.drop_left, List.append_assoc]
    · show (cfg.outputDir ++ e.relDir ++ [e.fileName]).getLast?
          = (cfg.inputDir ++ e.relDir ++ [e.fileName]).getLast?
      rw [List.getLast?_concat, List.getLast?_concat]
  · refine ⟨setupTrace w cfg, _, batch_trace w cfg, setupTrace_no_convert w cfg, ?_⟩
    intro e he
    split at he
    · cases e
      case mkdirParent d =>
        exfalso
        simp only [parTrace, List.mem_cons, List.mem_map] at he
        rcases he with h | ⟨it, -, heq⟩
        · exact Event.noConfusion h
        · exact Event.noConfusion heq
      all_goals simp [Event.isMkdirParent]
    · cases e
      case mkdirParent d =>
        exfalso
        simp only [seqTrace, List.mem_flatMap, List.mem_cons,
          List.not_mem_nil, or_false] at he
        obtain ⟨it, -, h⟩ := he
        rcases h with h | h
        · exact Event.noConfusion h
        · exact Event.noConfusion h
      all_goals simp [Event.isMkdirParent]

/-- Witness for C5: in the three-file scenario world, the item for
a/img1.tif maps to out/a/img1.tif. -/
theorem destination_mirrors_input_tree_witness :
    (⟨["in", "a", "img1.tif"], ["out", "a", "img1.tif"], false⟩ : WorkItem).outputPath
      = ["out"] ++ (["in", "a", "img1.tif"].drop 1) :=
  ((destination_mirrors_input_tree seqWorld seqConfig).1
    ⟨["in", "a", "img1.tif"], ["out", "a", "img1.tif"], false⟩ (by decide)).2.1

/-- C6 counterexample: with the extension set [".TIF"], the file img.tif
is covered under a fully case-insensitive reading, yet the code rejects
it — line 193 lowercases only the file's extension, so matching DOES
depend on the letter case of the set's entries. -/
theorem extension_case_cex :
    qualifiesCaseless [".TIF"] "img.tif" = true
    ∧ qualifies [".TIF"] "img.tif" = false := by decide

/-- C6 (amended): a file qualifies iff the lowercased form of its
extension is verbatim a member of the extension set — the file's own
letter case never matters (IMG.TIF qualifies under {.tif, .tiff}), but
the set's entries are matched exactly as written. -/
theorem qualifies_lowercased_member (exts : List String) (fname : String) :
    (qualifies exts fname = true ↔ lowerAscii (splitextExt fname) ∈ exts)
    ∧ qualifies [".tif", ".tiff"] "IMG.TIF" = true := by
  refine ⟨?_, by decide⟩
  simp [qualifies, List.elem_iff]

/-- Witness for the amended C6 at a concrete uppercase filename. -/
theorem qualifies_lowercased_member_witness :
    qualifies [".tif", ".tiff"] "ORTHO.TIF" = true :=
  (qualifies_lowercased_member [".tif", ".tiff"] "ORTHO.TIF").1.mpr (by decide)

/-- C7 counterexample: a conversion whose band copy raises yields a
failed outcome with an error message, but NO elapsed time is reported —
the duration line of line 143 is printed only on success, refuting
"elapsed time still reported" on failure. -/
theorem failure_duration_cex :
    (compress_geotiff 4 false { gdalAllOk with copyExn := some "boom" } 5
        ["in", "a.tif"] ["out", "a.tif"] false).succeeded = false
    ∧ ((compress_geotiff 4 false { gdalAllOk with copyExn := some "boom" } 5
        ["in", "a.tif"] ["out", "a.tif"] false).errorDetail).isSome = true
    ∧ (compress_geotiff 4 false { gdalAllOk with copyExn := some "boom" } 5
        ["in", "a.tif"] ["out", "a.tif"] false).reportedDuration = none := by decide

/-- C7 (amended): every captured failure yields `succeeded = false`
together with a human-readable error message, and the elapsed time of
the attempt is NOT reported — the source prints a duration only on the
success path. -/
theorem failed_outcome_shape (cpu : Nat) (hc : Bool) (f : GdalFile) (el : ℚ)
    (inp out : Path) (flag : Bool)
    (h : (compress_geotiff cpu hc f el inp out flag).succeeded = false) :
    ((compress_geotiff cpu hc f el inp out flag).errorDetail).isSome = true
    ∧ (compress_geotiff cpu hc f el inp out flag).reportedDuration = none := by
  rcases compress_geotiff_cases cpu hc f el inp out flag with hcase | ⟨h1, h2, h3⟩
  · rw [hcase] at h
    simp at h
  · exact ⟨h2, h3⟩

/-- Witness for the amended C7 at a concrete unreadable source file. -/
theorem failed_outcome_shape_witness :
    ((compress_geotiff 4 false { gdalAllOk with openOk := false } 5
        ["in", "a.tif"] ["out", "a.tif"] false).errorDetail).isSome = true
    ∧ (compress_geotiff 4 false { gdalAllOk with openOk := false } 5
        ["in", "a.tif"] ["out", "a.tif"] false).reportedDuration = none :=
  failed_outcome_shape 4 false { gdalAllOk with openOk := false } 5
    ["in", "a.tif"] ["out", "a.tif"] false (by decide)

/-- C9: when `parallel` is false or at most one item was enumerated, the
dispatch is the sequential loop on the calling thread: in enumeration
order, a progress line is printed for each item immediately before its
conversion. -/
theorem sequential_dispatch_order (w : World) (cfg : BatchConfig)
    (h : cfg.parallel = false ∨ (batch_compress w cfg).totalFiles ≤ 1) :
    (batch_compress w cfg).trace
      = setupTrace w cfg
        ++ (batch_compress w cfg).workItems.flatMap
            (fun it => [Event.progressLine it.inputPath, Event.convert it (runConv w it)]) := by
  have hcond : ¬(cfg.parallel = true ∧ 1 < (workItemsOf w cfg).length) := by
    rintro ⟨hp, hlen⟩
    rcases h with h9 | h9
    · rw [h9] at hp
      exact Bool.noConfusion hp
    · have hle : (workItemsOf w cfg).length ≤ 1 := h9
      omega
  rw [batch_trace, if_neg hcond, batch_workItems]
  rfl

/-- Witness for C9: the three-file scenario run with `parallel = false`. -/
theorem sequential_dispatch_order_witness :
    (batch_compress seqWorld seqConfig).trace
      = setupTrace seqWorld seqConfig
        ++ (batch_compress seqWorld seqConfig).workItems.flatMap
            (fun it => [Event.progressLine it.inputPath,
                        Event.convert it (runConv seqWorld it)]) :=
  sequential_dispatch_order seqWorld seqConfig (Or.inl rfl)

/-- C10: every enumerated work item carries the same acceleration flag,
namely the conjunction of the (run-only-when-requested) probe result and
the caller's request; and when acceleration is not requested, the probe
is skipped (no probe event in the trace) and every item's flag is
false. -/
theorem uniform_acceleration_flag (w : World) (cfg : BatchConfig) :
    (∀ it ∈ (batch_compress w cfg).workItems,
        it.use_gpu = (gpuAvailable w cfg && cfg.use_gpu))
    ∧ (cfg.use_gpu = false →
        (∀ it ∈ (batch_compress w cfg).workItems, it.use_gpu = false)
        ∧ (∀ r, Event.probe r ∉ (batch_compress w cfg).trace)) := by
  constructor
  · intro it hmem
    exact mem_workItems_flag (batch_workItems w cfg ▸ hmem)
  · intro hreq
    constructor
    · intro it hmem
      have hflag := mem_workItems_flag (batch_workItems w cfg ▸ hmem)
      rw [hflag, hreq, Bool.and_false]
    · intro r hmem
      rw [batch_trace] at hmem
      rcases List.mem_append.mp hmem with h | h
      · simp only [setupTrace, List.mem_append, List.mem_map] at h
        rcases h with (h1 | h1) | ⟨it, -, heq⟩
        · cases hw : w.outputRootExists <;> rw [hw] at h1 <;> simp at h1
        · rw [hreq] at h1
          simp at h1
        · exact Event.noConfusion heq
      · split at h
        · simp only [parTrace, List.mem_cons, List.mem_map] at h
          rcases h with h1 | ⟨it, -, heq⟩
          · exact Event.noConfusion h1
          · exact Event.noConfusion heq
        · simp only [seqTrace, List.mem_flatMap, List.mem_cons,
            List.not_mem_nil, or_false] at h
          obtain ⟨it, -, h1⟩ := h
          rcases h1 with h1 | h1
          · exact Event.noConfusion h1
          · exact Event.noConfusion h1

/-- Witness for C10: with acceleration not requested, no probe event
appears in the three-file scenario's trace. -/
theorem uniform_acceleration_flag_witness :
    Event.probe true ∉ (batch_compress seqWorld seqConfig).trace
    ∧ Event.probe false ∉ (batch_compress seqWorld seqConfig).trace :=
  ⟨((uniform_acceleration_flag seqWorld seqConfig).2 rfl).2 true,
   ((uniform_acceleration_flag seqWorld seqConfig).2 rfl).2 false⟩

end CompressOrtho
